import Mathlib

/-!
Shallow embedding of the per-frame simulation engine of the arcade game in
`src/app/page.tsx` (the `gameLoop` closure together with `spawnEnemy`,
`spawnWave`, `spawnPowerUp` and the power-up `switch`).

JavaScript numbers are modelled as rationals (`ℚ`); every numeric literal of
the source is exact in `ℚ`.  `Math.random()` draws are threaded explicitly as
arguments or as a stream `ℕ → ℚ` with an index.  Particles are purely cosmetic
(the spec's §4.5) and their velocities use `Math.cos`/`Math.sin` of real
angles, so the embedding records each `createParticles(pos, color, count)`
invocation as a `Burst` event instead of materialising the individual particle
bodies; no gameplay-visible quantity depends on a particle's fields.
-/

namespace Arcade

/-- 2-D vector, `interface Vector2` (page.tsx lines 5–8). -/
structure Vec2 where
  x : ℚ
  y : ℚ
deriving DecidableEq

/-- Source `interface Player` (page.tsx lines 16–24). -/
structure Player where
  pos : Vec2
  vel : Vec2
  radius : ℚ
  health : ℚ
  maxHealth : ℚ
  fireRate : ℚ
  damage : ℚ
  speed : ℚ
  lastFired : ℚ
  invulnerable : ℚ
deriving DecidableEq

/-- The four enemy archetypes, `Enemy['type']` (page.tsx line 30). -/
inductive EnemyType where
  | basic
  | fast
  | tank
  | shooter
deriving DecidableEq

/-- Source `interface Enemy` (page.tsx lines 26–33); the source field `type` is a
Lean keyword and is rendered `etype`. -/
structure Enemy where
  pos : Vec2
  vel : Vec2
  radius : ℚ
  health : ℚ
  maxHealth : ℚ
  speed : ℚ
  etype : EnemyType
  lastFired : ℚ
  color : String
deriving DecidableEq

/-- Source `interface Bullet` (page.tsx lines 35–38). -/
structure Bullet where
  pos : Vec2
  vel : Vec2
  radius : ℚ
  damage : ℚ
  isPlayerBullet : Bool
deriving DecidableEq

/-- One `createParticles(pos, color, count)` call (page.tsx lines 190–204);
see the module comment for why particle bodies are not materialised. -/
structure Burst where
  pos : Vec2
  color : String
  count : ℕ
deriving DecidableEq

/-- Source `PowerUp['type']` (page.tsx line 47). -/
inductive PowerUpType where
  | health
  | damage
  | firerate
  | speed
deriving DecidableEq

/-- Source `interface PowerUp` (page.tsx lines 46–49). -/
structure PowerUp where
  pos : Vec2
  vel : Vec2
  radius : ℚ
  ptype : PowerUpType
  color : String
deriving DecidableEq

/-- Source `interface GameState` (page.tsx lines 51–65); `keys` is the set of
currently held key codes, `particles` the recorded emission events. -/
structure GameState where
  player : Player
  enemies : List Enemy
  bullets : List Bullet
  particles : List Burst
  powerUps : List PowerUp
  score : ℤ
  wave : ℕ
  waveProgress : ℕ
  enemiesThisWave : ℕ
  enemiesKilled : ℕ
  gameOver : Bool
  paused : Bool
  keys : List String
deriving DecidableEq

/-! ## Collision test

Every overlap test of the resolver computes
`dist = Math.sqrt(dx*dx + dy*dy)` and compares `dist < r1 + r2`
(page.tsx lines 356–360, 382–386, 402–406, 422–426).  The executable
embedding uses the equivalent squared comparison; theorem `collision_strict`
below proves the two forms agree for nonnegative radii sums and that the
boundary `dist = r1 + r2` is not reported as a collision. -/

/-- The collision predicate exactly as the source computes it:
`Math.sqrt(dx*dx + dy*dy) < r1 + r2`. -/
def collidesDist (p q : Vec2) (r₁ r₂ : ℚ) : Prop :=
  Real.sqrt (((p.x - q.x : ℚ) : ℝ) ^ 2 + ((p.y - q.y : ℚ) : ℝ) ^ 2) < (r₁ : ℝ) + r₂

/-- The resolver's collision test in executable (squared) form:
`dist < r1 + r2` with both sides squared. -/
def collides (p q : Vec2) (r₁ r₂ : ℚ) : Bool :=
  decide ((p.x - q.x) ^ 2 + (p.y - q.y) ^ 2 < (r₁ + r₂) ^ 2)

/-! ## Movement (player)

Source lines 240–254: velocity is rebuilt from the held keys each frame
(`±speed` per active axis intent), position is integrated, then clamped to
`[radius, bound - radius]` on both axes. -/

/-- The clamping pattern `Math.max(lo, Math.min(hi, x))` of lines 253–254. -/
def clampTo (lo hi x : ℚ) : ℚ := max lo (min hi x)

/-- Membership test `state.keys.has(k)`. -/
def keyHeld (keys : List String) (k : String) : Bool := keys.contains k

/-- Horizontal velocity from the held keys (lines 241, 244–245). -/
def moveIntentX (keys : List String) (speed : ℚ) : ℚ :=
  let v₁ := if keyHeld keys "ArrowLeft" || keyHeld keys "KeyA" then (0 : ℚ) - speed else 0
  if keyHeld keys "ArrowRight" || keyHeld keys "KeyD" then v₁ + speed else v₁

/-- Vertical velocity from the held keys (lines 242, 246–247). -/
def moveIntentY (keys : List String) (speed : ℚ) : ℚ :=
  let v₁ := if keyHeld keys "ArrowUp" || keyHeld keys "KeyW" then (0 : ℚ) - speed else 0
  if keyHeld keys "ArrowDown" || keyHeld keys "KeyS" then v₁ + speed else v₁

/-- The player movement update of lines 240–254: input-driven velocity, then
`pos += vel`, then clamp to the playfield bounds minus radius. -/
def movePlayer (width height : ℚ) (keys : List String) (p : Player) : Player :=
  let vx := moveIntentX keys p.speed
  let vy := moveIntentY keys p.speed
  { p with
    vel := ⟨vx, vy⟩
    pos := ⟨clampTo p.radius (width - p.radius) (p.pos.x + vx),
            clampTo p.radius (height - p.radius) (p.pos.y + vy)⟩ }

/-! ## Power-up effects

Source lines 429–442: the pickup `switch` applying one power-up's permanent
stat mutation. -/

/-- The pickup `switch` of lines 429–442. -/
def applyPowerUp (t : PowerUpType) (p : Player) : Player :=
  match t with
  | .health => { p with health := min p.maxHealth (p.health + 20) }
  | .damage => { p with damage := p.damage + 2 }
  | .firerate => { p with fireRate := max 50 (p.fireRate - 15) }
  | .speed => { p with speed := min 8 (p.speed + 3/10) }

/-- Result of the player-vs-power-ups collision pass. -/
structure PickupResult where
  powerUps : List PowerUp
  player : Player
  bursts : List Burst
deriving DecidableEq

/-- The player-vs-power-ups pass (lines 420–446).  The source iterates the
array from the last index down to 0, splicing picked-up entries; the
recursion below processes the tail (higher indices) first accordingly. -/
def playerVsPowerUps : List PowerUp → Player → List Burst → PickupResult
  | [], p, bs => ⟨[], p, bs⟩
  | pu :: rest, p, bs =>
    let r := playerVsPowerUps rest p bs
    if collides r.player.pos pu.pos r.player.radius pu.radius then
      ⟨r.powerUps, applyPowerUp pu.ptype r.player, r.bursts ++ [⟨pu.pos, pu.color, 8⟩]⟩
    else
      ⟨pu :: r.powerUps, r.player, r.bursts⟩

/-! ## Combat passes against the player

Source lines 378–397 (enemy bullets vs player) and 400–417 (player vs enemy
bodies).  Both passes iterate their array from the last index down to 0 and
splice hit entries, so the recursions below process the tail (higher indices)
first and thread the mutated player through. -/

/-- Result of the enemy-bullets-vs-player pass. -/
structure ShotResult where
  bullets : List Bullet
  player : Player
  gameOver : Bool
  bursts : List Burst
deriving DecidableEq

/-- The enemy-bullets-vs-player pass (lines 378–397): player-fired bullets
are skipped; a hit lands only when the player is not invulnerable, subtracts
the bullet's damage, grants a 500 ms invulnerability window, destroys the
bullet, and raises the game-over flag when the resulting health is ≤ 0. -/
def enemyBulletsVsPlayer : List Bullet → Player → Bool → List Burst → ShotResult
  | [], p, go, bu => ⟨[], p, go, bu⟩
  | b :: rest, p, go, bu =>
    let r := enemyBulletsVsPlayer rest p go bu
    if b.isPlayerBullet then ⟨b :: r.bullets, r.player, r.gameOver, r.bursts⟩
    else if collides b.pos r.player.pos b.radius r.player.radius
        && decide (r.player.invulnerable ≤ 0) then
      let p' := { r.player with health := r.player.health - b.damage, invulnerable := 500 }
      if p'.health ≤ 0 then
        ⟨r.bullets, p', true, r.bursts ++ [⟨b.pos, "#4444ff", 8⟩, ⟨p'.pos, "#44ffff", 30⟩]⟩
      else
        ⟨r.bullets, p', r.gameOver, r.bursts ++ [⟨b.pos, "#4444ff", 8⟩]⟩
    else ⟨b :: r.bullets, r.player, r.gameOver, r.bursts⟩

/-- Result of the player-vs-enemy-bodies pass. -/
structure ContactResult where
  enemies : List Enemy
  player : Player
  gameOver : Bool
  bursts : List Burst
deriving DecidableEq

/-- The player-vs-enemy-bodies pass (lines 400–417): on overlap, and only if
the player is not invulnerable, subtract the contact penalty `10 + wave * 2`,
grant a 1000 ms invulnerability window, destroy the enemy, and raise the
game-over flag when the resulting health is ≤ 0. -/
def playerVsEnemies (wave : ℕ) : List Enemy → Player → Bool → List Burst → ContactResult
  | [], p, go, bu => ⟨[], p, go, bu⟩
  | e :: rest, p, go, bu =>
    let r := playerVsEnemies wave rest p go bu
    if collides r.player.pos e.pos r.player.radius e.radius
        && decide (r.player.invulnerable ≤ 0) then
      let p' := { r.player with
                  health := r.player.health - (10 + (wave : ℚ) * 2)
                  invulnerable := 1000 }
      if p'.health ≤ 0 then
        ⟨r.enemies, p', true, r.bursts ++ [⟨e.pos, e.color, 10⟩, ⟨p'.pos, "#44ffff", 30⟩]⟩
      else
        ⟨r.enemies, p', r.gameOver, r.bursts ++ [⟨e.pos, e.color, 10⟩]⟩
    else ⟨e :: r.enemies, r.player, r.gameOver, r.bursts⟩

/-! ## Player bullets vs enemies (pass 1)

Source lines 349–375, with the drop roll of `spawnPowerUp` (lines 207–222). -/

/-- Score for a kill: `Math.floor(10 * wave * (enemy.maxHealth / 20))`
(line 366). -/
def scoreFor (wave : ℕ) (maxHealth : ℚ) : ℤ := ⌊10 * (wave : ℚ) * (maxHealth / 20)⌋

/-- The `types` array of line 210, in source order. -/
def powerUpKinds : List PowerUpType :=
  [PowerUpType.health, PowerUpType.damage, PowerUpType.firerate, PowerUpType.speed]

/-- The `colors` table of line 211. -/
def powerUpColor : PowerUpType → String
  | .health => "#44ff44"
  | .damage => "#ff4444"
  | .firerate => "#4444ff"
  | .speed => "#ffff44"

/-- Source `spawnPowerUp` (lines 207–222): when the first draw is below 0.3, a drop
whose kind is picked by the second draw is appended.  `Math.random()` lies in
`[0, 1)`, so the index `⌊r * 4⌋` stays inside the table.  Returns the updated
power-up list and the next unused index into the draw stream. -/
def spawnPowerUp (pos : Vec2) (pus : List PowerUp) (rng : ℕ → ℚ) (k : ℕ) :
    List PowerUp × ℕ :=
  if rng k < 3/10 then
    let t := powerUpKinds.getD (⌊rng (k + 1) * 4⌋).toNat PowerUpType.health
    (pus ++ [{ pos := pos, vel := ⟨0, 2⟩, radius := 10, ptype := t, color := powerUpColor t }],
     k + 2)
  else (pus, k + 1)

/-- The inner enemy scan of pass 1 (lines 354–373): the source scans enemies
from the last index down to 0 and breaks at the first overlap.  `none` when
no enemy overlaps the bullet; otherwise the updated enemy list (struck
enemy's health reduced, the enemy removed when that leaves it ≤ 0) paired
with the struck enemy after damage. -/
def scanEnemies (b : Bullet) : List Enemy → Option (List Enemy × Enemy)
  | [] => none
  | e :: rest =>
    match scanEnemies b rest with
    | some (rest', e') => some (e :: rest', e')
    | none =>
      if collides b.pos e.pos b.radius e.radius then
        let e' := { e with health := e.health - b.damage }
        some (if e'.health ≤ 0 then rest else e' :: rest, e')
      else none

/-- The pieces of `GameState` that pass 1 mutates, plus the index of the next
unused `Math.random()` draw. -/
structure KillState where
  enemies : List Enemy
  score : ℤ
  enemiesKilled : ℕ
  powerUps : List PowerUp
  bursts : List Burst
  rk : ℕ
deriving DecidableEq

/-- The player-bullets-vs-enemies pass (lines 349–375): bullets are scanned
from the last index down to 0; enemy-fired bullets are skipped; a hitting
bullet damages exactly the first scanned overlapping enemy and is destroyed;
a kill additionally awards `scoreFor`, bumps the kill counter, emits the
larger burst, rolls a power-up drop and removes the enemy. -/
def playerBulletsVsEnemies (wave : ℕ) (rng : ℕ → ℚ) :
    List Bullet → KillState → List Bullet × KillState
  | [], st => ([], st)
  | b :: rest, st =>
    let step := playerBulletsVsEnemies wave rng rest st
    let rest' := step.1
    let st' := step.2
    if !b.isPlayerBullet then (b :: rest', st')
    else
      match scanEnemies b st'.enemies with
      | none => (b :: rest', st')
      | some (es', e') =>
        if e'.health ≤ 0 then
          let dropped := spawnPowerUp e'.pos st'.powerUps rng st'.rk
          (rest',
           { enemies := es'
             score := st'.score + scoreFor wave e'.maxHealth
             enemiesKilled := st'.enemiesKilled + 1
             powerUps := dropped.1
             bursts := st'.bursts ++ [⟨b.pos, e'.color, 5⟩, ⟨e'.pos, e'.color, 15⟩]
             rk := dropped.2 })
        else
          (rest', { st' with enemies := es', bursts := st'.bursts ++ [⟨b.pos, e'.color, 5⟩] })

/-- The initial player that `initGame` builds for an 800×600 canvas
(page.tsx lines 86–97): used as a concrete sample input. -/
def pWitness : Player :=
  { pos := ⟨400, 500⟩, vel := ⟨0, 0⟩, radius := 15, health := 100, maxHealth := 100,
    fireRate := 150, damage := 10, speed := 5, lastFired := 0, invulnerable := 0 }

/-- The sample player with a still-running 1 ms invulnerability window. -/
def pInv : Player := { pWitness with invulnerable := 1 }

/-- A concrete enemy bullet overlapping the sample player (the shape a
shooter enemy fires at lines 293–299, damage `5 + wave` on wave 1). -/
def bWitness : Bullet :=
  { pos := ⟨400, 500⟩, vel := ⟨0, 4⟩, radius := 5, damage := 6, isPlayerBullet := false }

/-- A concrete wave-1 basic enemy overlapping the sample player
(stats from the `configs` table at lines 142–147). -/
def eWitness : Enemy :=
  { pos := ⟨400, 500⟩, vel := ⟨0, 21/10⟩, radius := 15, health := 25, maxHealth := 25,
    speed := 21/10, etype := EnemyType.basic, lastFired := 0, color := "#ff4444" }

/-! ## Wave director and deferred spawns

Source lines 140–187 (`spawnEnemy`, `spawnWave`) and 448–452 (the per-frame
wave-management check). -/

/-- One row of the per-archetype `configs` table (lines 142–147). -/
structure EnemyConfig where
  health : ℚ
  speed : ℚ
  radius : ℚ
  color : String
deriving DecidableEq

/-- The `configs` table of lines 142–147, scaled by the wave number. -/
def enemyConfig (t : EnemyType) (wave : ℕ) : EnemyConfig :=
  match t with
  | .basic => ⟨20 + (wave : ℚ) * 5, 2 + (wave : ℚ) * (1/10), 15, "#ff4444"⟩
  | .fast => ⟨10 + (wave : ℚ) * 3, 4 + (wave : ℚ) * (2/10), 10, "#ff8844"⟩
  | .tank => ⟨50 + (wave : ℚ) * 15, 1 + (wave : ℚ) * (5/100), 25, "#ff2222"⟩
  | .shooter => ⟨15 + (wave : ℚ) * 4, 3/2 + (wave : ℚ) * (1/10), 12, "#ff44ff"⟩

/-- Source `spawnEnemy` (lines 140–163): appends one enemy with archetype-and-wave
scaled stats just above the top edge, at a random x across the width. -/
def spawnEnemy (t : EnemyType) (wave : ℕ) (width rPos : ℚ) (s : GameState) : GameState :=
  let c := enemyConfig t wave
  { s with enemies := s.enemies ++
      [{ pos := ⟨rPos * width, -30⟩, vel := ⟨0, c.speed⟩, radius := c.radius,
         health := c.health, maxHealth := c.health, speed := c.speed, etype := t,
         lastFired := 0, color := c.color }] }

/-- Archetype selection inside a deferred spawn (lines 176–181): nested
threshold checks on a single draw, in the fixed priority shooter, fast,
tank, else basic. -/
def chooseType (wave : ℕ) (r : ℚ) : EnemyType :=
  if 3 ≤ wave ∧ r < 3/10 then .shooter
  else if 2 ≤ wave ∧ r < 1/2 then .fast
  else if 4 ≤ wave ∧ r < 6/10 then .tank
  else .basic

/-- The body of one deferred `setTimeout` spawn scheduled by `spawnWave`
(lines 173–185), as run when the timer fires: a finished run (game-over set)
drops the event; otherwise one enemy is spawned and the spawn progress
advances.  The null check on the state ref cannot fire in a running game and
is not modelled. -/
def spawnTimeoutFire (wave : ℕ) (width rType rPos : ℚ) (s : GameState) : GameState :=
  if s.gameOver then s
  else
    let s₁ := spawnEnemy (chooseType wave rType) wave width rPos s
    { s₁ with waveProgress := s₁.waveProgress + 1 }

/-- The synchronous part of `spawnWave` (lines 166–171) paired with the
`setTimeout` delays it schedules: target count `5 + wave * 2`, progress reset
to 0, and one deferred spawn per enemy at delays `0, 500, 1000, …` ms. -/
def spawnWaveSync (wave : ℕ) (s : GameState) : GameState × List ℕ :=
  ({ s with enemiesThisWave := 5 + wave * 2, waveProgress := 0 },
   (List.range (5 + wave * 2)).map (fun i => i * 500))

/-- The wave-management check of lines 448–452: only when the spawn quota has
been fully issued and no enemies remain does the wave number increment and
the next wave's spawning begin. -/
def waveCheck (s : GameState) : GameState × List ℕ :=
  if decide (s.enemiesThisWave ≤ s.waveProgress) && s.enemies.isEmpty then
    spawnWaveSync (s.wave + 1) { s with wave := s.wave + 1 }
  else (s, [])

/-! ## Frame driver guard -/

/-- One invocation of the frame driver `gameLoop` (lines 227–601).  When
`paused` or `gameOver` is set, the callback only re-schedules itself and
leaves the state untouched (lines 234–237); otherwise the frame body —
movement and steering, the shooting timers, the combat passes, the wave
check — runs.  The body is abstracted as a parameter (its enemy-steering
arithmetic normalises by a real square root); the guard is exactly what the
source's early return implements, for every body. -/
def frameStep (body : GameState → GameState) (s : GameState) : GameState :=
  if s.paused || s.gameOver then s else body s

/-- The transition `state.gameOver = true` taken at lines 393 and 413. -/
def setGameOver (s : GameState) : GameState := { s with gameOver := true }

/-- Scenario fixture: an enemy with `health = maxHealth = 20` on wave 1. -/
def eScenB : Enemy :=
  { pos := ⟨100, 100⟩, vel := ⟨0, 2⟩, radius := 15, health := 20, maxHealth := 20,
    speed := 2, etype := EnemyType.basic, lastFired := 0, color := "#ff4444" }

/-- Scenario fixture: a player bullet with damage 10 overlapping `eScenB`
(the shape the player fires at lines 257–266). -/
def bScenB : Bullet :=
  { pos := ⟨100, 100⟩, vel := ⟨0, -10⟩, radius := 4, damage := 10, isPlayerBullet := true }

/-- Scenario fixture: pass-1 state holding only `eScenB`. -/
def stScenB : KillState := ⟨[eScenB], 0, 0, [], [], 0⟩

/-- Scenario fixture: the sample player down to 5 health. -/
def pLow : Player := { pWitness with health := 5 }

/-- Scenario fixture: an enemy bullet with damage 30 overlapping `pLow`. -/
def bLethal : Bullet := { bWitness with damage := 30 }

/-- Scenario fixture: a health power-up overlapping the sample player. -/
def puHeal : PowerUp :=
  { pos := ⟨400, 500⟩, vel := ⟨0, 2⟩, radius := 10, ptype := PowerUpType.health,
    color := "#44ff44" }

/-- Scenario fixture: a finished run (game over already set). -/
def sOver : GameState :=
  { player := { pWitness with health := -5 }, enemies := [], bullets := [],
    particles := [], powerUps := [], score := 120, wave := 2, waveProgress := 9,
    enemiesThisWave := 9, enemiesKilled := 9, gameOver := true, paused := false,
    keys := [] }

/-- Scenario fixture: wave 1 fully spawned (7 of 7) and fully cleared. -/
def sClear : GameState :=
  { player := pWitness, enemies := [], bullets := [], particles := [],
    powerUps := [], score := 70, wave := 1, waveProgress := 7,
    enemiesThisWave := 7, enemiesKilled := 7, gameOver := false, paused := false,
    keys := [] }

end Arcade

open Arcade

lemma collides_iff_dist (p q : Vec2) (r₁ r₂ : ℚ) (h : 0 ≤ r₁ + r₂) :
    collides p q r₁ r₂ = true ↔ collidesDist p q r₁ r₂ := by
  rw [collides, decide_eq_true_iff, collidesDist]
  rcases lt_or_eq_of_le h with hpos | hzero
  · rw [Real.sqrt_lt' (by exact_mod_cast hpos)]
    constructor
    · intro hq
      push_cast
      exact_mod_cast hq
    · intro hr
      have : ((p.x - q.x : ℚ) : ℝ) ^ 2 + ((p.y - q.y : ℚ) : ℝ) ^ 2
          < (((r₁ + r₂ : ℚ)) : ℝ) ^ 2 := by push_cast; push_cast at hr; linarith
      exact_mod_cast this
  · constructor
    · intro hq
      exfalso
      have h0 : (0 : ℚ) ≤ (p.x - q.x) ^ 2 + (p.y - q.y) ^ 2 := by positivity
      have : ((r₁ + r₂ : ℚ)) ^ 2 = 0 := by rw [← hzero]; ring
      rw [this] at hq
      exact absurd hq (not_lt.mpr h0)
    · intro hr
      exfalso
      have h0 : (0 : ℝ) ≤ Real.sqrt (((p.x - q.x : ℚ) : ℝ) ^ 2 + ((p.y - q.y : ℚ) : ℝ) ^ 2) :=
        Real.sqrt_nonneg _
      have hz : ((r₁ : ℝ) + r₂) = 0 := by exact_mod_cast hzero.symm
      simp only [collidesDist, hz] at hr
      exact absurd hr (not_lt.mpr h0)

/-- C8: for every pair of entities with centers distance `D` apart and
nonnegative radii sum `r₁ + r₂`, the resolver's collision test reports a
collision iff `D < r₁ + r₂`, strictly: the boundary case `D = r₁ + r₂` is not
reported as colliding. -/
theorem collision_resolver_strict (p q : Vec2) (r₁ r₂ : ℚ) (h : 0 ≤ r₁ + r₂) :
    (collides p q r₁ r₂ = true ↔ collidesDist p q r₁ r₂) ∧
    (Real.sqrt (((p.x - q.x : ℚ) : ℝ) ^ 2 + ((p.y - q.y : ℚ) : ℝ) ^ 2) = (r₁ : ℝ) + r₂ →
      collides p q r₁ r₂ = false) := by
  refine ⟨collides_iff_dist p q r₁ r₂ h, fun heq => ?_⟩
  have hiff := collides_iff_dist p q r₁ r₂ h
  rw [collidesDist, heq] at hiff
  simp only [lt_self_iff_false, iff_false] at hiff
  exact eq_false_of_ne_true hiff

/-- Witness for C8 at concrete values: circles of radius 1 with centers 2
apart touch exactly and are not reported colliding. -/
theorem collision_resolver_strict_witness :
    (0 : ℚ) ≤ 1 + 1 ∧
    ((collides ⟨0, 0⟩ ⟨2, 0⟩ 1 1 = true ↔ collidesDist ⟨0, 0⟩ ⟨2, 0⟩ 1 1) ∧
     (Real.sqrt ((((0 : ℚ) - 2 : ℚ) : ℝ) ^ 2 + (((0 : ℚ) - 0 : ℚ) : ℝ) ^ 2) = ((1 : ℚ) : ℝ) + (1 : ℚ) →
      collides ⟨0, 0⟩ ⟨2, 0⟩ 1 1 = false)) :=
  ⟨by simp, collision_resolver_strict ⟨0, 0⟩ ⟨2, 0⟩ 1 1 (by simp)⟩

lemma clampTo_mem (lo hi x : ℚ) (h : lo ≤ hi) :
    lo ≤ clampTo lo hi x ∧ clampTo lo hi x ≤ hi :=
  ⟨le_max_left _ _, max_le h (min_le_left _ _)⟩

lemma moveIntentX_eq (keys : List String) (s : ℚ) :
    moveIntentX keys s =
      (if keyHeld keys "ArrowRight" || keyHeld keys "KeyD" then s else 0)
      - (if keyHeld keys "ArrowLeft" || keyHeld keys "KeyA" then s else 0) := by
  unfold moveIntentX
  cases hL : keyHeld keys "ArrowLeft" || keyHeld keys "KeyA" <;>
    cases hR : keyHeld keys "ArrowRight" || keyHeld keys "KeyD" <;> simp

lemma moveIntentY_eq (keys : List String) (s : ℚ) :
    moveIntentY keys s =
      (if keyHeld keys "ArrowDown" || keyHeld keys "KeyS" then s else 0)
      - (if keyHeld keys "ArrowUp" || keyHeld keys "KeyW" then s else 0) := by
  unfold moveIntentY
  cases hU : keyHeld keys "ArrowUp" || keyHeld keys "KeyW" <;>
    cases hD : keyHeld keys "ArrowDown" || keyHeld keys "KeyS" <;> simp

/-- C6: after every movement update, for every combination of held directional
keys, the player's position lies in `[radius, bound - radius]` on both axes
(whenever the playfield is at least one diameter wide), and the velocity used
is the sum of `+speed` for each positive-axis intent and `-speed` for each
negative-axis intent (no intent on an axis gives zero velocity there). -/
theorem player_move_clamped (width height : ℚ) (keys : List String) (p : Player)
    (hw : p.radius ≤ width - p.radius) (hh : p.radius ≤ height - p.radius) :
    (p.radius ≤ (movePlayer width height keys p).pos.x ∧
      (movePlayer width height keys p).pos.x ≤ width - p.radius) ∧
    (p.radius ≤ (movePlayer width height keys p).pos.y ∧
      (movePlayer width height keys p).pos.y ≤ height - p.radius) ∧
    (movePlayer width height keys p).vel.x =
      (if keyHeld keys "ArrowRight" || keyHeld keys "KeyD" then p.speed else 0)
      - (if keyHeld keys "ArrowLeft" || keyHeld keys "KeyA" then p.speed else 0) ∧
    (movePlayer width height keys p).vel.y =
      (if keyHeld keys "ArrowDown" || keyHeld keys "KeyS" then p.speed else 0)
      - (if keyHeld keys "ArrowUp" || keyHeld keys "KeyW" then p.speed else 0) := by
  refine ⟨?_, ?_, ?_, ?_⟩
  · exact clampTo_mem p.radius (width - p.radius) _ hw
  · exact clampTo_mem p.radius (height - p.radius) _ hh
  · simp [movePlayer, moveIntentX_eq]
  · simp [movePlayer, moveIntentY_eq]

/-- Witness for C6 at a concrete player and playfield. -/
theorem player_move_clamped_witness :
    (pWitness.radius ≤ 800 - pWitness.radius ∧ pWitness.radius ≤ 600 - pWitness.radius) ∧
    ((pWitness.radius ≤ (movePlayer 800 600 ["ArrowLeft", "KeyS"] pWitness).pos.x ∧
      (movePlayer 800 600 ["ArrowLeft", "KeyS"] pWitness).pos.x ≤ 800 - pWitness.radius) ∧
     (pWitness.radius ≤ (movePlayer 800 600 ["ArrowLeft", "KeyS"] pWitness).pos.y ∧
      (movePlayer 800 600 ["ArrowLeft", "KeyS"] pWitness).pos.y ≤ 600 - pWitness.radius) ∧
     (movePlayer 800 600 ["ArrowLeft", "KeyS"] pWitness).vel.x =
       (if keyHeld ["ArrowLeft", "KeyS"] "ArrowRight" || keyHeld ["ArrowLeft", "KeyS"] "KeyD" then pWitness.speed else 0)
       - (if keyHeld ["ArrowLeft", "KeyS"] "ArrowLeft" || keyHeld ["ArrowLeft", "KeyS"] "KeyA" then pWitness.speed else 0) ∧
     (movePlayer 800 600 ["ArrowLeft", "KeyS"] pWitness).vel.y =
       (if keyHeld ["ArrowLeft", "KeyS"] "ArrowDown" || keyHeld ["ArrowLeft", "KeyS"] "KeyS" then pWitness.speed else 0)
       - (if keyHeld ["ArrowLeft", "KeyS"] "ArrowUp" || keyHeld ["ArrowLeft", "KeyS"] "KeyW" then pWitness.speed else 0)) :=
  ⟨⟨by norm_num [pWitness], by norm_num [pWitness]⟩,
   player_move_clamped 800 600 ["ArrowLeft", "KeyS"] pWitness (by norm_num [pWitness])
     (by norm_num [pWitness])⟩

/-- C7: applying firerate power-ups repeatedly never drives the fire interval
below 50 ms, applying speed power-ups repeatedly never raises the speed above
8, and a health power-up adds 20 clamped to `maxHealth` — for every starting
stat value and every positive number of pickups. -/
theorem powerup_clamps (p : Player) (n : ℕ) (hn : 1 ≤ n) :
    50 ≤ ((applyPowerUp PowerUpType.firerate)^[n] p).fireRate ∧
    ((applyPowerUp PowerUpType.speed)^[n] p).speed ≤ 8 ∧
    ∀ q : Player, (applyPowerUp PowerUpType.health q).health = min q.maxHealth (q.health + 20) := by
  obtain ⟨m, rfl⟩ : ∃ m, n = m + 1 := ⟨n - 1, (Nat.succ_pred_eq_of_pos hn).symm⟩
  refine ⟨?_, ?_, fun q => rfl⟩
  · rw [Function.iterate_succ_apply']
    exact le_max_left _ _
  · rw [Function.iterate_succ_apply']
    exact min_le_left _ _

/-- Witness for C7: one pickup of each kind on the starting player stats. -/
theorem powerup_clamps_witness :
    1 ≤ 1 ∧
    (50 ≤ ((applyPowerUp PowerUpType.firerate)^[1] pWitness).fireRate ∧
     ((applyPowerUp PowerUpType.speed)^[1] pWitness).speed ≤ 8 ∧
     ∀ q : Player, (applyPowerUp PowerUpType.health q).health = min q.maxHealth (q.health + 20)) :=
  ⟨le_refl 1, powerup_clamps pWitness 1 (le_refl 1)⟩

lemma pass2_invulnerable_id (bs : List Bullet) (p : Player) (go : Bool) (bu : List Burst)
    (h : 0 < p.invulnerable) :
    enemyBulletsVsPlayer bs p go bu = ⟨bs, p, go, bu⟩ := by
  induction bs with
  | nil => rfl
  | cons b rest ih =>
    have hd : decide (p.invulnerable ≤ 0) = false := decide_eq_false (not_le.mpr h)
    cases hb : b.isPlayerBullet <;> simp [enemyBulletsVsPlayer, ih, hd, hb]

lemma pass3_invulnerable_id (wave : ℕ) (es : List Enemy) (p : Player) (go : Bool)
    (bu : List Burst) (h : 0 < p.invulnerable) :
    playerVsEnemies wave es p go bu = ⟨es, p, go, bu⟩ := by
  induction es with
  | nil => rfl
  | cons e rest ih =>
    have hd : decide (p.invulnerable ≤ 0) = false := decide_eq_false (not_le.mpr h)
    simp [playerVsEnemies, ih, hd]

lemma pass2_cases (bs : List Bullet) (p : Player) (go : Bool) (bu : List Burst) :
    ((enemyBulletsVsPlayer bs p go bu).player = p ∧
     (enemyBulletsVsPlayer bs p go bu).gameOver = go) ∨
    (∃ b ∈ bs, b.isPlayerBullet = false ∧
      collides b.pos p.pos b.radius p.radius = true ∧ p.invulnerable ≤ 0 ∧
      (enemyBulletsVsPlayer bs p go bu).player =
        { p with health := p.health - b.damage, invulnerable := 500 } ∧
      (enemyBulletsVsPlayer bs p go bu).gameOver =
        (go || decide (p.health - b.damage ≤ 0))) := by
  induction bs with
  | nil => exact Or.inl ⟨rfl, rfl⟩
  | cons b rest ih =>
    rcases ih with ⟨hp, hg⟩ | ⟨b₂, hmem, hpb, hcol, hinv, hp, hg⟩
    · cases hb : b.isPlayerBullet
      · by_cases hc : (collides b.pos p.pos b.radius p.radius
            && decide (p.invulnerable ≤ 0)) = true
        · refine Or.inr ⟨b, List.mem_cons_self b rest, hb, ?_, ?_, ?_, ?_⟩
          · exact (Bool.and_eq_true _ _).mp hc |>.1
          · exact of_decide_eq_true ((Bool.and_eq_true _ _).mp hc |>.2)
          · by_cases hko : p.health - b.damage ≤ 0 <;>
              simp [enemyBulletsVsPlayer, hb, hp, hc, hko]
          · by_cases hko : p.health - b.damage ≤ 0 <;>
              simp [enemyBulletsVsPlayer, hb, hp, hg, hc, hko]
        · exact Or.inl (by simp [enemyBulletsVsPlayer, hb, hp, hg,
            Bool.not_eq_true _ ▸ hc])
      · exact Or.inl (by simp [enemyBulletsVsPlayer, hb, hp, hg])
    · have h500f : ¬((500 : ℚ) ≤ 0) := by norm_num
      refine Or.inr ⟨b₂, List.mem_cons_of_mem b hmem, hpb, hcol, hinv, ?_, ?_⟩ <;>
        cases hb : b.isPlayerBullet <;>
          simp [enemyBulletsVsPlayer, hb, hp, hg, h500f]

lemma pass3_cases (wave : ℕ) (es : List Enemy) (p : Player) (go : Bool) (bu : List Burst) :
    ((playerVsEnemies wave es p go bu).player = p ∧
     (playerVsEnemies wave es p go bu).gameOver = go) ∨
    (∃ e ∈ es, collides p.pos e.pos p.radius e.radius = true ∧ p.invulnerable ≤ 0 ∧
      (playerVsEnemies wave es p go bu).player =
        { p with health := p.health - (10 + (wave : ℚ) * 2), invulnerable := 1000 } ∧
      (playerVsEnemies wave es p go bu).gameOver =
        (go || decide (p.health - (10 + (wave : ℚ) * 2) ≤ 0))) := by
  induction es with
  | nil => exact Or.inl ⟨rfl, rfl⟩
  | cons e rest ih =>
    rcases ih with ⟨hp, hg⟩ | ⟨e₂, hmem, hcol, hinv, hp, hg⟩
    · by_cases hc : (collides p.pos e.pos p.radius e.radius
          && decide (p.invulnerable ≤ 0)) = true
      · refine Or.inr ⟨e, List.mem_cons_self e rest, ?_, ?_, ?_, ?_⟩
        · exact (Bool.and_eq_true _ _).mp hc |>.1
        · exact of_decide_eq_true ((Bool.and_eq_true _ _).mp hc |>.2)
        · by_cases hko : p.health - (10 + (wave : ℚ) * 2) ≤ 0 <;>
            simp [playerVsEnemies, hp, hc, hko]
        · by_cases hko : p.health - (10 + (wave : ℚ) * 2) ≤ 0 <;>
            simp [playerVsEnemies, hp, hg, hc, hko]
      · exact Or.inl (by simp [playerVsEnemies, hp, hg, Bool.not_eq_true _ ▸ hc])
    · have h1000f : ¬((1000 : ℚ) ≤ 0) := by norm_num
      refine Or.inr ⟨e₂, List.mem_cons_of_mem e hmem, hcol, hinv, ?_, ?_⟩ <;>
        simp [playerVsEnemies, hp, hg, h1000f]

/-- C4: a hit (enemy bullet or enemy body) arriving while the player's
invulnerability countdown is positive deals zero damage and leaves the whole
pass state unchanged; any damage the two passes do deal is exactly one hit's
worth, taken while not invulnerable, and that hit sets the invulnerability
window to 500 ms (bullet) or 1000 ms (body contact) — which is why every
further hit inside the same frame is blocked, not just the first. -/
theorem invulnerability_window (bs : List Bullet) (es : List Enemy) (p : Player)
    (go : Bool) (bu : List Burst) (wave : ℕ) :
    (0 < p.invulnerable →
      enemyBulletsVsPlayer bs p go bu = ⟨bs, p, go, bu⟩ ∧
      playerVsEnemies wave es p go bu = ⟨es, p, go, bu⟩) ∧
    ((enemyBulletsVsPlayer bs p go bu).player ≠ p →
      ∃ b ∈ bs, b.isPlayerBullet = false ∧
        collides b.pos p.pos b.radius p.radius = true ∧ p.invulnerable ≤ 0 ∧
        (enemyBulletsVsPlayer bs p go bu).player =
          { p with health := p.health - b.damage, invulnerable := 500 }) ∧
    ((playerVsEnemies wave es p go bu).player ≠ p →
      ∃ e ∈ es, collides p.pos e.pos p.radius e.radius = true ∧ p.invulnerable ≤ 0 ∧
        (playerVsEnemies wave es p go bu).player =
          { p with health := p.health - (10 + (wave : ℚ) * 2), invulnerable := 1000 }) := by
  refine ⟨fun h => ⟨pass2_invulnerable_id bs p go bu h, pass3_invulnerable_id wave es p go bu h⟩,
    fun hne => ?_, fun hne => ?_⟩
  · rcases pass2_cases bs p go bu with ⟨hp, _⟩ | ⟨b, hmem, hpb, hcol, hinv, hp, _⟩
    · exact absurd hp hne
    · exact ⟨b, hmem, hpb, hcol, hinv, hp⟩
  · rcases pass3_cases wave es p go bu with ⟨hp, _⟩ | ⟨e, hmem, hcol, hinv, hp, _⟩
    · exact absurd hp hne
    · exact ⟨e, hmem, hcol, hinv, hp⟩

/-- Witness for C4: the starting player with a still-running invulnerability
window, one overlapping enemy bullet and one overlapping enemy. -/
theorem invulnerability_window_witness :
    (0 < pInv.invulnerable →
      enemyBulletsVsPlayer [bWitness] pInv false [] = ⟨[bWitness], pInv, false, []⟩ ∧
      playerVsEnemies 1 [eWitness] pInv false [] = ⟨[eWitness], pInv, false, []⟩) ∧
    ((enemyBulletsVsPlayer [bWitness] pInv false []).player ≠ pInv →
      ∃ b ∈ [bWitness], b.isPlayerBullet = false ∧
        collides b.pos pInv.pos b.radius pInv.radius = true ∧ pInv.invulnerable ≤ 0 ∧
        (enemyBulletsVsPlayer [bWitness] pInv false []).player =
          { pInv with health := pInv.health - b.damage, invulnerable := 500 }) ∧
    ((playerVsEnemies 1 [eWitness] pInv false []).player ≠ pInv →
      ∃ e ∈ [eWitness], collides pInv.pos e.pos pInv.radius e.radius = true ∧
        pInv.invulnerable ≤ 0 ∧
        (playerVsEnemies 1 [eWitness] pInv false []).player =
          { pInv with
            health := pInv.health - (10 + ((1 : ℕ) : ℚ) * 2)
            invulnerable := 1000 }) :=
  invulnerability_window [bWitness] [eWitness] pInv false [] 1

lemma pass1_skips_enemy_bullets (wave : ℕ) (rng : ℕ → ℚ) (bs : List Bullet) (st : KillState)
    (h : ∀ b ∈ bs, b.isPlayerBullet = false) :
    playerBulletsVsEnemies wave rng bs st = (bs, st) := by
  induction bs with
  | nil => rfl
  | cons b rest ih =>
    have hb : b.isPlayerBullet = false := h b (List.mem_cons_self b rest)
    have ih' := ih (fun b₂ hmem => h b₂ (List.mem_cons_of_mem b hmem))
    simp [playerBulletsVsEnemies, ih', hb]

lemma pass2_skips_player_bullets (bs : List Bullet) (p : Player) (go : Bool) (bu : List Burst)
    (h : ∀ b ∈ bs, b.isPlayerBullet = true) :
    enemyBulletsVsPlayer bs p go bu = ⟨bs, p, go, bu⟩ := by
  induction bs with
  | nil => rfl
  | cons b rest ih =>
    have hb : b.isPlayerBullet = true := h b (List.mem_cons_self b rest)
    have ih' := ih (fun b₂ hmem => h b₂ (List.mem_cons_of_mem b hmem))
    simp [enemyBulletsVsPlayer, ih', hb]

/-- C10: bullet ownership isolates the damage channels — the
bullets-vs-enemies pass is the identity on a list of enemy-fired bullets (so
an enemy bullet never reduces any enemy's health, score, kills or drops), and
the bullets-vs-player pass is the identity on a list of player-fired bullets
(so a player bullet never reduces the player's health). -/
theorem bullet_ownership_channels (wave : ℕ) (rng : ℕ → ℚ) (bs₁ bs₂ : List Bullet)
    (st : KillState) (p : Player) (go : Bool) (bu : List Burst)
    (h₁ : ∀ b ∈ bs₁, b.isPlayerBullet = false) (h₂ : ∀ b ∈ bs₂, b.isPlayerBullet = true) :
    playerBulletsVsEnemies wave rng bs₁ st = (bs₁, st) ∧
    enemyBulletsVsPlayer bs₂ p go bu = ⟨bs₂, p, go, bu⟩ :=
  ⟨pass1_skips_enemy_bullets wave rng bs₁ st h₁, pass2_skips_player_bullets bs₂ p go bu h₂⟩

/-- Witness for C10: one enemy-fired bullet against a live enemy, and one
player-fired bullet against the player, both overlapping. -/
theorem bullet_ownership_channels_witness :
    (∀ b ∈ [bWitness], b.isPlayerBullet = false) ∧
    (∀ b ∈ [{ bWitness with isPlayerBullet := true }], b.isPlayerBullet = true) ∧
    (playerBulletsVsEnemies 1 (fun _ => 1/2) [bWitness] ⟨[eWitness], 0, 0, [], [], 0⟩
        = ([bWitness], ⟨[eWitness], 0, 0, [], [], 0⟩) ∧
     enemyBulletsVsPlayer [{ bWitness with isPlayerBullet := true }] pWitness false []
        = ⟨[{ bWitness with isPlayerBullet := true }], pWitness, false, []⟩) :=
  ⟨by simp [bWitness], by simp,
   bullet_ownership_channels 1 (fun _ => 1/2) [bWitness]
     [{ bWitness with isPlayerBullet := true }] ⟨[eWitness], 0, 0, [], [], 0⟩ pWitness false []
     (by simp [bWitness]) (by simp)⟩

lemma scanEnemies_none (b : Bullet) (es : List Enemy)
    (h : ∀ e ∈ es, collides b.pos e.pos b.radius e.radius = false) :
    scanEnemies b es = none := by
  induction es with
  | nil => rfl
  | cons e rest ih =>
    have he := h e (List.mem_cons_self e rest)
    have ih' := ih (fun e₂ hmem => h e₂ (List.mem_cons_of_mem e hmem))
    simp [scanEnemies, ih', he]

lemma scanEnemies_found (b : Bullet) (pre post : List Enemy) (e : Enemy)
    (hcol : collides b.pos e.pos b.radius e.radius = true)
    (hpost : ∀ e₂ ∈ post, collides b.pos e₂.pos b.radius e₂.radius = false) :
    scanEnemies b (pre ++ e :: post) =
      some (pre ++ (if e.health - b.damage ≤ 0 then post
                    else { e with health := e.health - b.damage } :: post),
            { e with health := e.health - b.damage }) := by
  induction pre with
  | nil =>
    simp [scanEnemies, scanEnemies_none b post hpost, hcol]
  | cons a pre' ih =>
    simp [scanEnemies, ih]


lemma pass1_single_bullet_spec (wave : ℕ) (rng : ℕ → ℚ) (b : Bullet) (st : KillState)
    (pre post : List Enemy) (e : Enemy)
    (hb : b.isPlayerBullet = true)
    (hes : st.enemies = pre ++ e :: post)
    (hcol : collides b.pos e.pos b.radius e.radius = true)
    (hpost : ∀ e₂ ∈ post, collides b.pos e₂.pos b.radius e₂.radius = false) :
    (playerBulletsVsEnemies wave rng [b] st).1 = [] ∧
    (0 < e.health - b.damage →
      (playerBulletsVsEnemies wave rng [b] st).2 =
        { st with
          enemies := pre ++ { e with health := e.health - b.damage } :: post
          bursts := st.bursts ++ [⟨b.pos, e.color, 5⟩] }) ∧
    (e.health - b.damage ≤ 0 →
      (playerBulletsVsEnemies wave rng [b] st).2.enemies = pre ++ post ∧
      (playerBulletsVsEnemies wave rng [b] st).2.score = st.score + scoreFor wave e.maxHealth ∧
      (playerBulletsVsEnemies wave rng [b] st).2.enemiesKilled = st.enemiesKilled + 1 ∧
      (playerBulletsVsEnemies wave rng [b] st).2.bursts =
        st.bursts ++ [⟨b.pos, e.color, 5⟩, ⟨e.pos, e.color, 15⟩] ∧
      (rng st.rk < 3/10 → ∃ t : PowerUpType,
        (playerBulletsVsEnemies wave rng [b] st).2.powerUps = st.powerUps ++
          [{ pos := e.pos, vel := ⟨0, 2⟩, radius := 10, ptype := t, color := powerUpColor t }]) ∧
      (¬(rng st.rk < 3/10) →
        (playerBulletsVsEnemies wave rng [b] st).2.powerUps = st.powerUps)) := by
  have hscan := scanEnemies_found b pre post e hcol hpost
  refine ⟨?_, ?_, ?_⟩
  · by_cases hko : e.health - b.damage ≤ 0 <;>
      simp [playerBulletsVsEnemies, hb, hes, hscan, hko]
  · intro hl
    have hko : ¬(e.health - b.damage ≤ 0) := not_le.mpr hl
    simp [playerBulletsVsEnemies, hb, hes, hscan, hko]
  · intro hko
    refine ⟨?_, ?_, ?_, ?_, ?_, ?_⟩
    · simp [playerBulletsVsEnemies, hb, hes, hscan, hko]
    · simp [playerBulletsVsEnemies, hb, hes, hscan, hko]
    · simp [playerBulletsVsEnemies, hb, hes, hscan, hko]
    · simp [playerBulletsVsEnemies, hb, hes, hscan, hko]
    · intro hdrop
      exact ⟨powerUpKinds.getD (⌊rng (st.rk + 1) * 4⌋).toNat PowerUpType.health,
        by simp [playerBulletsVsEnemies, hb, hes, hscan, hko, spawnPowerUp, hdrop]⟩
    · intro hdrop
      simp [playerBulletsVsEnemies, hb, hes, hscan, hko, spawnPowerUp, hdrop]

/-- C5: a player bullet resolves against at most one enemy per frame — the
first overlap in scan order (the scan runs from the end of the array, so none
of the later-scanned enemies in `post` overlaps), not the closest.  The hit
subtracts the bullet's damage from that enemy alone and destroys the bullet;
when the resulting health is ≤ 0 the score grows by exactly
`⌊10 · wave · enemy.maxHealth / 20⌋`, the kill counter increments, a power-up
drop is rolled (appended exactly when the draw is below 0.3) at the enemy's
position, and the enemy is removed.  In particular an enemy with
`health = maxHealth = 20` on wave 1 hit twice by damage-10 bullets survives
the first hit at health 10, is removed by the second, and awards exactly 10
score. -/
theorem player_bullet_kill_cascade (wave : ℕ) (rng : ℕ → ℚ) (b : Bullet) (st : KillState)
    (pre post : List Enemy) (e : Enemy)
    (hb : b.isPlayerBullet = true)
    (hes : st.enemies = pre ++ e :: post)
    (hcol : collides b.pos e.pos b.radius e.radius = true)
    (hpost : ∀ e₂ ∈ post, collides b.pos e₂.pos b.radius e₂.radius = false) :
    ((playerBulletsVsEnemies wave rng [b] st).1 = [] ∧
     (0 < e.health - b.damage →
       (playerBulletsVsEnemies wave rng [b] st).2 =
         { st with
           enemies := pre ++ { e with health := e.health - b.damage } :: post
           bursts := st.bursts ++ [⟨b.pos, e.color, 5⟩] }) ∧
     (e.health - b.damage ≤ 0 →
       (playerBulletsVsEnemies wave rng [b] st).2.enemies = pre ++ post ∧
       (playerBulletsVsEnemies wave rng [b] st).2.score = st.score + scoreFor wave e.maxHealth ∧
       (playerBulletsVsEnemies wave rng [b] st).2.enemiesKilled = st.enemiesKilled + 1 ∧
       (playerBulletsVsEnemies wave rng [b] st).2.bursts =
         st.bursts ++ [⟨b.pos, e.color, 5⟩, ⟨e.pos, e.color, 15⟩] ∧
       (rng st.rk < 3/10 → ∃ t : PowerUpType,
         (playerBulletsVsEnemies wave rng [b] st).2.powerUps = st.powerUps ++
           [{ pos := e.pos, vel := ⟨0, 2⟩, radius := 10, ptype := t, color := powerUpColor t }]) ∧
       (¬(rng st.rk < 3/10) →
         (playerBulletsVsEnemies wave rng [b] st).2.powerUps = st.powerUps))) ∧
    ((playerBulletsVsEnemies 1 (fun _ => 1/2) [bScenB] stScenB).2.enemies
        = [{ eScenB with health := 10 }] ∧
     (playerBulletsVsEnemies 1 (fun _ => 1/2) [bScenB]
        (playerBulletsVsEnemies 1 (fun _ => 1/2) [bScenB] stScenB).2).2.enemies = [] ∧
     (playerBulletsVsEnemies 1 (fun _ => 1/2) [bScenB]
        (playerBulletsVsEnemies 1 (fun _ => 1/2) [bScenB] stScenB).2).2.score = 10 ∧
     (playerBulletsVsEnemies 1 (fun _ => 1/2) [bScenB]
        (playerBulletsVsEnemies 1 (fun _ => 1/2) [bScenB] stScenB).2).2.enemiesKilled = 1) := by
  have hb1 : bScenB.isPlayerBullet = true := rfl
  have hes1 : stScenB.enemies = [] ++ eScenB :: [] := rfl
  have hcol1 : collides bScenB.pos eScenB.pos bScenB.radius eScenB.radius = true := by
    norm_num [collides, bScenB, eScenB]
  have hpost1 : ∀ e₂ ∈ ([] : List Enemy),
      collides bScenB.pos e₂.pos bScenB.radius e₂.radius = false := by simp
  have h1 := pass1_single_bullet_spec 1 (fun _ => 1/2) bScenB stScenB [] [] eScenB
    hb1 hes1 hcol1 hpost1
  have hlive : 0 < eScenB.health - bScenB.damage := by norm_num [eScenB, bScenB]
  have hstate1 := h1.2.1 hlive
  have hes2 : (playerBulletsVsEnemies 1 (fun _ => 1/2) [bScenB] stScenB).2.enemies
      = [] ++ ({ eScenB with health := eScenB.health - bScenB.damage } : Enemy) :: [] := by
    rw [hstate1]
  have h2 := pass1_single_bullet_spec 1 (fun _ => 1/2) bScenB
    (playerBulletsVsEnemies 1 (fun _ => 1/2) [bScenB] stScenB).2 [] []
    ({ eScenB with health := eScenB.health - bScenB.damage } : Enemy) hb1 hes2 hcol1 hpost1
  have hko2 : ({ eScenB with health := eScenB.health - bScenB.damage } : Enemy).health
      - bScenB.damage ≤ 0 := by norm_num [eScenB, bScenB]
  have h2spec := h2.2.2 hko2
  refine ⟨pass1_single_bullet_spec wave rng b st pre post e hb hes hcol hpost, ?_, ?_, ?_, ?_⟩
  · rw [hstate1]
    norm_num [eScenB, bScenB, stScenB]
  · rw [h2spec.1]
    rfl
  · rw [h2spec.2.1, hstate1]
    norm_num [stScenB, scoreFor, eScenB]
  · rw [h2spec.2.2.1, hstate1]
    rfl

/-- Witness for C5: the scenario-B fixtures themselves — the bullet is
destroyed on the first hit and the second hit brings the score to 10. -/
theorem player_bullet_kill_cascade_witness :
    bScenB.isPlayerBullet = true ∧
    stScenB.enemies = [] ++ eScenB :: [] ∧
    collides bScenB.pos eScenB.pos bScenB.radius eScenB.radius = true ∧
    (playerBulletsVsEnemies 1 (fun _ => 1/2) [bScenB] stScenB).1 = [] ∧
    (playerBulletsVsEnemies 1 (fun _ => 1/2) [bScenB]
       (playerBulletsVsEnemies 1 (fun _ => 1/2) [bScenB] stScenB).2).2.score = 10 :=
  have h := player_bullet_kill_cascade 1 (fun _ => 1/2) bScenB stScenB [] [] eScenB rfl rfl
    (by norm_num [collides, bScenB, eScenB]) (by simp)
  ⟨rfl, rfl, by norm_num [collides, bScenB, eScenB], h.1.1, h.2.2.2.1⟩

/-- C9: a deferred enemy-spawn event firing after the game-over flag is set
is detected and discarded: the finished run's state is returned unchanged —
no enemy is added, spawn progress does not advance, nothing else mutates. -/
theorem stale_spawn_discarded (wave : ℕ) (width rType rPos : ℚ) (s : GameState)
    (h : s.gameOver = true) :
    spawnTimeoutFire wave width rType rPos s = s := by
  simp [spawnTimeoutFire, h]

/-- Witness for C9: a late wave-3 spawn event fired on a finished run. -/
theorem stale_spawn_discarded_witness :
    sOver.gameOver = true ∧ spawnTimeoutFire 3 800 (1/2) (1/3) sOver = sOver :=
  ⟨rfl, stale_spawn_discarded 3 800 (1/2) (1/3) sOver rfl⟩

/-- C2: the wave number never advances while any enemy is alive, even with
the spawn quota met; when the quota has been fully issued and the enemy
collection is empty it advances exactly once — a second check on the
advanced state does nothing — and entering wave `N` sets the target enemy
count to `5 + 2N` with one deferred spawn per enemy scheduled 500 ms apart
(delay `i * 500` for the i-th). -/
theorem wave_progression (s : GameState) (hq : s.enemiesThisWave ≤ s.waveProgress)
    (he : s.enemies = []) :
    (∀ s₂ : GameState, s₂.enemies ≠ [] → waveCheck s₂ = (s₂, [])) ∧
    (waveCheck s).1.wave = s.wave + 1 ∧
    (waveCheck s).1.enemiesThisWave = 5 + (s.wave + 1) * 2 ∧
    (waveCheck s).1.waveProgress = 0 ∧
    (waveCheck s).2 = (List.range (5 + (s.wave + 1) * 2)).map (fun i => i * 500) ∧
    (∀ i, i < (waveCheck s).2.length → (waveCheck s).2.getD i 0 = i * 500) ∧
    waveCheck (waveCheck s).1 = ((waveCheck s).1, []) := by
  have hcond : (decide (s.enemiesThisWave ≤ s.waveProgress) && s.enemies.isEmpty) = true := by
    simp [hq, he]
  have hwc : waveCheck s =
      ({ s with wave := s.wave + 1, enemiesThisWave := 5 + (s.wave + 1) * 2, waveProgress := 0 },
       (List.range (5 + (s.wave + 1) * 2)).map (fun i => i * 500)) := by
    simp [waveCheck, hcond, spawnWaveSync]
  refine ⟨fun s₂ hne => ?_, ?_, ?_, ?_, ?_, ?_, ?_⟩
  · have hne' : s₂.enemies.isEmpty = false := by
      simpa [List.isEmpty_iff] using hne
    simp [waveCheck, hne']
  · rw [hwc]
  · rw [hwc]
  · rw [hwc]
  · rw [hwc]
  · intro i hi
    rw [hwc] at hi ⊢
    simp only [List.length_map, List.length_range] at hi
    simp [List.getD_eq_getElem?_getD, List.getElem?_map, List.getElem?_range, hi]
  · rw [hwc]
    have hfalse : ¬(5 + (s.wave + 1) * 2 ≤ 0) := by omega
    simp [waveCheck, hfalse]

/-- Witness for C2: wave 1 fully spawned and fully cleared advances to wave 2
with a 9-enemy quota. -/
theorem wave_progression_witness :
    sClear.enemiesThisWave ≤ sClear.waveProgress ∧ sClear.enemies = [] ∧
    ((∀ s₂ : GameState, s₂.enemies ≠ [] → waveCheck s₂ = (s₂, [])) ∧
     (waveCheck sClear).1.wave = sClear.wave + 1 ∧
     (waveCheck sClear).1.enemiesThisWave = 5 + (sClear.wave + 1) * 2 ∧
     (waveCheck sClear).1.waveProgress = 0 ∧
     (waveCheck sClear).2 = (List.range (5 + (sClear.wave + 1) * 2)).map (fun i => i * 500) ∧
     (∀ i, i < (waveCheck sClear).2.length → (waveCheck sClear).2.getD i 0 = i * 500) ∧
     waveCheck (waveCheck sClear).1 = ((waveCheck sClear).1, [])) :=
  ⟨le_refl 7, rfl, wave_progression sClear (le_refl 7) rfl⟩

lemma scanEnemies_healthPos (b : Bullet) :
    ∀ (es es' : List Enemy) (e' : Enemy), scanEnemies b es = some (es', e') →
      (∀ e ∈ es, 0 < e.health) → ∀ e ∈ es', 0 < e.health := by
  intro es
  induction es with
  | nil => intro es' e' h; simp [scanEnemies] at h
  | cons e rest ih =>
    intro es' e' h hall
    cases hr : scanEnemies b rest with
    | some pr =>
      obtain ⟨rest', e₂⟩ := pr
      simp only [scanEnemies, hr] at h
      injection h with h'
      injection h' with h1 h2
      intro x hx
      rw [← h1] at hx
      rcases List.mem_cons.mp hx with rfl | hx'
      · exact hall x (List.mem_cons_self x rest)
      · exact ih rest' e₂ hr (fun y hy => hall y (List.mem_cons_of_mem e hy)) x hx'
    | none =>
      simp only [scanEnemies, hr] at h
      by_cases hc : collides b.pos e.pos b.radius e.radius = true
      · rw [if_pos hc] at h
        injection h with h'
        injection h' with h1 h2
        intro x hx
        rw [← h1] at hx
        by_cases hko : e.health - b.damage ≤ 0
        · rw [if_pos (by simpa using hko)] at hx
          exact hall x (List.mem_cons_of_mem e hx)
        · rw [if_neg (by simpa using hko)] at hx
          rcases List.mem_cons.mp hx with rfl | hx'
          · simpa using not_le.mp hko
          · exact hall x (List.mem_cons_of_mem e hx')
      · rw [if_neg (by simpa using hc)] at h
        exact absurd h (by simp)

lemma pass1_healthPos (wave : ℕ) (rng : ℕ → ℚ) :
    ∀ (bs : List Bullet) (st : KillState), (∀ e ∈ st.enemies, 0 < e.health) →
      ∀ e ∈ (playerBulletsVsEnemies wave rng bs st).2.enemies, 0 < e.health := by
  intro bs
  induction bs with
  | nil =>
    intro st h
    simpa [playerBulletsVsEnemies] using h
  | cons b rest ih =>
    intro st hall
    have hst' := ih st hall
    by_cases hb : b.isPlayerBullet = true
    · cases hscan : scanEnemies b (playerBulletsVsEnemies wave rng rest st).2.enemies with
      | none => simpa [playerBulletsVsEnemies, hb, hscan] using hst'
      | some pr =>
        obtain ⟨es', e'⟩ := pr
        have hes' := scanEnemies_healthPos b _ es' e' hscan hst'
        by_cases hko : e'.health ≤ 0 <;>
          simpa [playerBulletsVsEnemies, hb, hscan, hko] using hes'
    · have hb' : b.isPlayerBullet = false := by simpa using hb
      simpa [playerBulletsVsEnemies, hb'] using hst'

lemma pass2_lethal_eval : enemyBulletsVsPlayer [bLethal] pLow false [] =
    ⟨[], { pLow with health := -25, invulnerable := 500 }, true,
     [⟨bLethal.pos, "#4444ff", 8⟩, ⟨pLow.pos, "#44ffff", 30⟩]⟩ := by
  norm_num [enemyBulletsVsPlayer, collides, bLethal, bWitness, pLow, pWitness]

/-- Counterexample to C3 as stated: a player at health 5 struck by a
damage-30 enemy bullet while not invulnerable.  The stored health becomes
−25 — outside `[0, maxHealth]` — at the very step the game-over check reads
it (and it stays −25 afterwards); no lower clamp exists. -/
theorem health_in_range_counterexample :
    (enemyBulletsVsPlayer [bLethal] pLow false []).player.health = -25 ∧
    (enemyBulletsVsPlayer [bLethal] pLow false []).gameOver = true ∧
    ¬(0 ≤ (enemyBulletsVsPlayer [bLethal] pLow false []).player.health) := by
  rw [pass2_lethal_eval]
  norm_num [pLow, pWitness]

/-- C3 amended: health mutations are bounded above but not clamped below —
damage passes only ever lower the player's health (never above its previous
value, hence never above `maxHealth` once below it), the health power-up
clamps its heal to `maxHealth`, and whenever a damage mutation leaves stored
health negative the game-over check fires in the same step; on the enemy
side, a pass over enemies all at positive health leaves only enemies at
positive health (an enemy driven to ≤ 0 is removed in the same step). -/
theorem health_mutation_bounds (bs : List Bullet) (es : List Enemy) (p q : Player)
    (go : Bool) (bu : List Burst) (wave : ℕ) (rng : ℕ → ℚ) (st : KillState)
    (hd : ∀ b ∈ bs, 0 ≤ b.damage) :
    ((enemyBulletsVsPlayer bs p go bu).player.health ≤ p.health) ∧
    ((enemyBulletsVsPlayer bs p go bu).player.health < 0 → 0 ≤ p.health →
      (enemyBulletsVsPlayer bs p go bu).gameOver = true) ∧
    ((playerVsEnemies wave es p go bu).player.health ≤ p.health) ∧
    ((playerVsEnemies wave es p go bu).player.health < 0 → 0 ≤ p.health →
      (playerVsEnemies wave es p go bu).gameOver = true) ∧
    ((applyPowerUp PowerUpType.health q).health ≤ q.maxHealth) ∧
    ((∀ e ∈ st.enemies, 0 < e.health) →
      ∀ e ∈ (playerBulletsVsEnemies wave rng bs st).2.enemies, 0 < e.health) := by
  refine ⟨?_, ?_, ?_, ?_, min_le_left _ _, pass1_healthPos wave rng bs st⟩
  · rcases pass2_cases bs p go bu with ⟨hp, _⟩ | ⟨b, hmem, _, _, _, hp, _⟩
    · rw [hp]
    · rw [hp]
      simpa using sub_le_self p.health (hd b hmem)
  · intro hneg hpos
    rcases pass2_cases bs p go bu with ⟨hp, _⟩ | ⟨b, hmem, _, _, _, hp, hg⟩
    · rw [hp] at hneg
      exact absurd hneg (not_lt.mpr hpos)
    · rw [hp] at hneg
      simp only at hneg
      rw [hg]
      simp [le_of_lt hneg]
  · rcases pass3_cases wave es p go bu with ⟨hp, _⟩ | ⟨e, hmem, _, _, hp, _⟩
    · rw [hp]
    · rw [hp]
      have hpen : (0 : ℚ) ≤ 10 + (wave : ℚ) * 2 := by positivity
      simpa using sub_le_self p.health hpen
  · intro hneg hpos
    rcases pass3_cases wave es p go bu with ⟨hp, _⟩ | ⟨e, hmem, _, _, hp, hg⟩
    · rw [hp] at hneg
      exact absurd hneg (not_lt.mpr hpos)
    · rw [hp] at hneg
      simp only at hneg
      rw [hg]
      simp [le_of_lt hneg]

/-- Witness for C3 (amended) at concrete inputs: the lethal bullet, one
overlapping enemy, the initial player, and the scenario-B kill state. -/
theorem health_mutation_bounds_witness :
    (∀ b ∈ [bLethal], 0 ≤ b.damage) ∧
    (((enemyBulletsVsPlayer [bLethal] pLow false []).player.health ≤ pLow.health) ∧
     ((enemyBulletsVsPlayer [bLethal] pLow false []).player.health < 0 → 0 ≤ pLow.health →
       (enemyBulletsVsPlayer [bLethal] pLow false []).gameOver = true) ∧
     ((playerVsEnemies 1 [eWitness] pLow false []).player.health ≤ pLow.health) ∧
     ((playerVsEnemies 1 [eWitness] pLow false []).player.health < 0 → 0 ≤ pLow.health →
       (playerVsEnemies 1 [eWitness] pLow false []).gameOver = true) ∧
     ((applyPowerUp PowerUpType.health pWitness).health ≤ pWitness.maxHealth) ∧
     ((∀ e ∈ stScenB.enemies, 0 < e.health) →
       ∀ e ∈ (playerBulletsVsEnemies 1 (fun _ => 1/2) [bLethal] stScenB).2.enemies,
         0 < e.health)) :=
  ⟨by norm_num [bLethal, bWitness],
   health_mutation_bounds [bLethal] [eWitness] pLow pWitness false [] 1 (fun _ => 1/2)
     stScenB (by norm_num [bLethal, bWitness])⟩

/-- Counterexample to C1 as stated: in the frame in which the enemy-bullet
pass sets the game-over flag, the player-vs-power-up pass still runs
unguarded (lines 420–446 check neither `gameOver` nor invulnerability), so a
health power-up picked up later in that same frame changes the dead player's
health (here from −25 to −5). -/
theorem gameover_frame_heal_counterexample :
    (enemyBulletsVsPlayer [bLethal] pLow false []).gameOver = true ∧
    (playerVsPowerUps [puHeal]
        (enemyBulletsVsPlayer [bLethal] pLow false []).player []).player.health ≠
      (enemyBulletsVsPlayer [bLethal] pLow false []).player.health := by
  rw [pass2_lethal_eval]
  refine ⟨rfl, ?_⟩
  norm_num [playerVsPowerUps, applyPowerUp, collides, puHeal, pLow, pWitness]

/-- C1 corrected: once the game-over flag is set, every later frame leaves
the whole state untouched (the frame driver early-returns), setting the flag
a second time is harmless, hits arriving while the invulnerability window is
open (as it is right after the hit that set game-over: 500 ms or 1000 ms)
leave health unchanged — so the remaining enemy-bullet and enemy-body
combat in the same frame cannot alter health — and movement never touches
health.  (The player-vs-power-up pass of the same frame is NOT guarded and
may still change health; see the counterexample.) -/
theorem gameover_freeze (body : GameState → GameState) (s : GameState)
    (bs : List Bullet) (es : List Enemy) (p : Player) (go : Bool) (bu : List Burst)
    (wave : ℕ) (width height : ℚ) (keys : List String) :
    (s.gameOver = true → frameStep body s = s) ∧
    setGameOver (setGameOver s) = setGameOver s ∧
    (0 < p.invulnerable → (enemyBulletsVsPlayer bs p go bu).player.health = p.health) ∧
    (0 < p.invulnerable → (playerVsEnemies wave es p go bu).player.health = p.health) ∧
    ((enemyBulletsVsPlayer bs p false bu).gameOver = true →
      (playerVsEnemies wave es (enemyBulletsVsPlayer bs p false bu).player true
        (enemyBulletsVsPlayer bs p false bu).bursts).player.health =
        (enemyBulletsVsPlayer bs p false bu).player.health) ∧
    (movePlayer width height keys p).health = p.health := by
  refine ⟨fun h => by simp [frameStep, h], rfl, fun h => ?_, fun h => ?_, fun h => ?_, rfl⟩
  · rw [pass2_invulnerable_id bs p go bu h]
  · rw [pass3_invulnerable_id wave es p go bu h]
  · rcases pass2_cases bs p false bu with ⟨_, hg⟩ | ⟨b, _, _, _, _, hp, _⟩
    · rw [hg] at h
      exact absurd h (by simp)
    · have hinv : 0 < (enemyBulletsVsPlayer bs p false bu).player.invulnerable := by
        rw [hp]
        norm_num
      rw [pass3_invulnerable_id wave es _ true _ hinv]

/-- Witness for C1 (amended) at concrete inputs: a finished run, the sample
invulnerable player, an overlapping enemy bullet and enemy. -/
theorem gameover_freeze_witness :
    (sOver.gameOver = true → frameStep id sOver = sOver) ∧
    setGameOver (setGameOver sOver) = setGameOver sOver ∧
    (0 < pInv.invulnerable →
      (enemyBulletsVsPlayer [bWitness] pInv false []).player.health = pInv.health) ∧
    (0 < pInv.invulnerable →
      (playerVsEnemies 1 [eWitness] pInv false []).player.health = pInv.health) ∧
    ((enemyBulletsVsPlayer [bWitness] pInv false []).gameOver = true →
      (playerVsEnemies 1 [eWitness] (enemyBulletsVsPlayer [bWitness] pInv false []).player true
        (enemyBulletsVsPlayer [bWitness] pInv false []).bursts).player.health =
        (enemyBulletsVsPlayer [bWitness] pInv false []).player.health) ∧
    (movePlayer 800 600 ["KeyA"] pInv).health = pInv.health :=
  gameover_freeze id sOver [bWitness] [eWitness] pInv false [] 1 800 600 ["KeyA"]
